import Mathlib

/-!
Shallow embedding of the atomic-cloud pterodactyl driver core
(`src/controller/drivers/pterodactyl/src/driver/backend.rs`,
`src/drivers/pterodactyl/src/driver/backend/allocation.rs`) and of the
authorization capsule (`src/controller/src/application/auth/user.rs`).

The remote HTTP transport is abstracted as a function parameter
(`fetch` for paged list requests, `http` for raw requests); the Rust
loop `for_each_on_pages` is embedded with an explicit fuel parameter and
is instrumented with the trace of attempted page fetches, so that
properties about the number and order of fetches can be stated.  Code
paths that panic in Rust (`Option::unwrap` on absent fields) are made
explicit through the `PResult` type.
-/

namespace AtomicCloud

/-! ## Page envelope (module `common`, shape as used by `backend.rs` and spec section 6) -/

/-- Wire wrapper `{attributes: ...}` around a single record. -/
structure BObject (α : Type) where
  attributes : α
deriving DecidableEq

/-- Pagination metadata of a page envelope; only `total_pages` is consulted
by the page walker. -/
structure BPagination where
  total_pages : Nat
deriving DecidableEq

structure BMeta where
  pagination : BPagination
deriving DecidableEq

/-- A page envelope: a data payload plus pagination metadata. -/
structure BBody (α : Type) where
  data : α
  meta : BMeta

/-- `BList T` is the envelope of a paged listing of `T` records. -/
abbrev BList (α : Type) := BBody (List (BObject α))

/-! ## The page walker `Backend::for_each_on_pages`

The Rust loop starts at page 1, fetches a page, runs the (stateful)
callback, stops when the callback says so or when the fetched page
reports `total_pages <= page`, and otherwise advances to the next page.
When the fetch returns `None` the loop body does nothing: the same page
is fetched again on the next iteration.

The embedding threads the callback's captured state `σ` explicitly,
takes a fuel bound on loop iterations, and returns the final state, the
list of page numbers at which a fetch was attempted (in order), and a
flag that is `true` when the loop terminated by itself and `false` when
the fuel ran out first. -/

def for_each_on_pages {α σ : Type} (fetch : Nat → Option (BList α))
    (callback : σ → BList α → σ × Bool) : σ → Nat → Nat → σ × List Nat × Bool
  | s, _page, 0 => (s, [], false)
  | s, page, fuel + 1 =>
    match fetch page with
    | some response =>
      let r := callback s response
      if r.2 then (r.1, [page], true)
      else if response.meta.pagination.total_pages ≤ page then (r.1, [page], true)
      else
        let rest := for_each_on_pages fetch callback r.1 (page + 1) fuel
        (rest.1, page :: rest.2.1, rest.2.2)
    | none =>
      let rest := for_each_on_pages fetch callback s page fuel
      (rest.1, page :: rest.2.1, rest.2.2)

/-- `Backend::api_find_on_pages`: walk the pages with a callback that
extracts at most one matching item; stop as soon as it yields one. -/
def api_find_on_pages {α : Type} (fetch : Nat → Option (BList α))
    (callback : BList α → Option α) (fuel : Nat) : Option α × List Nat × Bool :=
  for_each_on_pages fetch
    (fun value response =>
      match callback response with
      | some data => (some data, true)
      | none => (value, false))
    none 1 fuel

/-! ## Allocations (`allocation.rs` and `Backend::get_free_allocations`) -/

/-- Provider allocation record (`BAllocation` in `allocation.rs`). -/
structure BAllocation where
  id : Nat
  ip : String
  port : Nat
  assigned : Bool
deriving DecidableEq

/-- The body of the per-page closure of `Backend::get_free_allocations`:
scan the page's records in order; skip a record when it is `assigned` or
its (ip, port) matches a used allocation; otherwise push it and stop the
whole walk as soon as the accumulated list reaches `amount`. -/
def free_alloc_scan (used : List BAllocation) (amount : Nat) :
    List BAllocation → List (BObject BAllocation) → List BAllocation × Bool
  | allocations, [] => (allocations, false)
  | allocations, allocation :: rest =>
    if allocation.attributes.assigned
        || used.any (fun u => u.ip == allocation.attributes.ip
            && u.port == allocation.attributes.port) then
      free_alloc_scan used amount allocations rest
    else
      let allocations2 := allocations ++ [allocation.attributes]
      if amount ≤ allocations2.length then (allocations2, true)
      else free_alloc_scan used amount allocations2 rest

/-- `Backend::get_free_allocations`: walk the node's allocation listing
(abstracted as `fetch`; the node id only selects the endpoint) and
collect free allocations with `free_alloc_scan`. -/
def get_free_allocations (fetch : Nat → Option (BList BAllocation))
    (used_allocations : List BAllocation) (amount : Nat) (fuel : Nat) :
    List BAllocation :=
  (for_each_on_pages fetch
    (fun allocations response =>
      free_alloc_scan used_allocations amount allocations response.data)
    [] 1 fuel).1

/-! ## HTTP transport shapes and response handling (`backend.rs`) -/

inductive Method where
  | Get
  | Post
deriving DecidableEq

structure Header where
  key : String
  value : String
deriving DecidableEq

/-- A transport response: status code, reason phrase and raw body bytes. -/
structure Response where
  status_code : Nat
  reason_phrase : String
  bytes : List Nat
deriving DecidableEq

/-- Outcome of a Rust computation that may panic (an `Option::unwrap` of
`None`), made explicit in the embedding. -/
inductive PResult (α : Type) where
  | panic
  | ok (value : α)
deriving DecidableEq

/-- `Backend::handle_response`: accept a response only when it is
present, its status exactly matches the expected code, and its body
decodes (`decode` stands for `serde_json::from_slice`); every other
outcome is only logged and yields `none` — never a default value and
never a typed error. -/
def handle_response {T : Type} (decode : List Nat → Option T)
    (response : Option Response) (expected_code : Nat) : Option T :=
  match response with
  | none => none
  | some r =>
    if r.status_code ≠ expected_code then none
    else
      match decode r.bytes with
      | none => none
      | some value => some value

/-! ## The backend adapter state and request plumbing -/

structure ResolvedValues where
  user : Nat
deriving DecidableEq

structure Backend where
  url : Option String
  token : Option String
  user : Option String
  resolved : Option ResolvedValues
deriving DecidableEq

def APPLICATION_ENDPOINT : String := "/api/application"

/-- `Backend::send_request_to_api`: build the url and bearer header from
the stored configuration (the `unwrap`s panic when url or token is
absent), issue the request through the abstract transport `http`, and
filter the response through `handle_response` with expected status 200. -/
def send_request_to_api {T : Type}
    (http : Method → String → List Header → Option (List Nat) → Option Response)
    (decode : List Nat → Option T) (b : Backend) (method : Method)
    (endpoint target : String) (body : Option (List Nat)) (page : Option Nat) :
    PResult (Option T) :=
  match b.url, b.token with
  | some url, some token =>
    let url0 := url ++ endpoint ++ "/" ++ target
    let url1 := match page with
      | some p => url0 ++ "?page=" ++ toString p
      | none => url0
    PResult.ok (handle_response decode
      (http method url1 [{ key := "Authorization", value := "Bearer " ++ token }] body) 200)
  | _, _ => PResult.panic

/-- `Backend::api_get_list`: a paged GET-style list request. -/
def api_get_list {T : Type}
    (http : Method → String → List Header → Option (List Nat) → Option Response)
    (decode : List Nat → Option (BList T)) (b : Backend) (method : Method)
    (endpoint target : String) (page : Option Nat) : PResult (Option (BList T)) :=
  send_request_to_api http decode b method endpoint target none page

/-- `Backend::post_object_to_api`: serialize the wrapped payload
(`serde_json::to_vec(...).ok()`, abstracted as `serialize`) and POST it. -/
def post_object_to_api {T K : Type}
    (http : Method → String → List Header → Option (List Nat) → Option Response)
    (serialize : BObject T → Option (List Nat))
    (decode : List Nat → Option (BObject K)) (b : Backend)
    (endpoint target : String) (object : BObject T) : PResult (Option (BObject K)) :=
  send_request_to_api http decode b Method.Post endpoint target (serialize object) none

/-! ## Server creation (`Backend::create_server`).  The bridge data types
carry the fields `backend.rs` reads; the provider resource-limit and
feature-limit types and the created-server record type live outside the
sampled sources and are kept generic (`L`, `F`, `K`), as is the
resource conversion `into`. -/

structure KeyValue where
  key : String
  value : String

structure Deployment where
  image : String
  environment : List KeyValue

structure ServerAllocationSpec (R : Type) where
  deployment : Deployment
  resources : R

/-- The canonical server-creation descriptor handed across the bridge. -/
structure Server (R : Type) where
  name : String
  allocation : ServerAllocationSpec R

structure BCServerAllocation where
  default : Nat

/-- The provider's creation payload, as constructed in `create_server`. -/
structure BCServer (L F : Type) where
  name : String
  user : Nat
  egg : Nat
  docker_image : String
  startup : String
  environment : List (String × String)
  limits : L
  feature_limits : F
  allocation : BCServerAllocation

/-- `Backend::create_server`: build the provider creation payload from
the canonical request — unconditionally dereferencing the cached
resolved identity (`self.resolved.as_ref().unwrap()` panics when it is
absent) — POST it, and project the created record's attributes. -/
def create_server {R L F K : Type}
    (http : Method → String → List Header → Option (List Nat) → Option Response)
    (serialize : BObject (BCServer L F) → Option (List Nat))
    (decode : List Nat → Option (BObject K))
    (into : R → L) (b : Backend) (server : Server R) (allocation : BAllocation)
    (egg : Nat) (startup : String) (features : F) : PResult (Option K) :=
  match b.resolved with
  | none => PResult.panic
  | some resolved =>
    let backend_server : BCServer L F := {
      name := server.name
      user := resolved.user
      egg := egg
      docker_image := server.allocation.deployment.image
      startup := startup
      environment := server.allocation.deployment.environment.map (fun v => (v.key, v.value))
      limits := into server.allocation.resources
      feature_limits := features
      allocation := { default := allocation.id } }
    match post_object_to_api http serialize decode b APPLICATION_ENDPOINT "servers"
        { attributes := backend_server } with
    | PResult.panic => PResult.panic
    | PResult.ok response => PResult.ok (response.map (fun data => data.attributes))

/-! ## Users and configuration loading -/

/-- Provider user record (the fields `backend.rs` reads). -/
structure BUser where
  id : Nat
  username : String
deriving DecidableEq

/-- `Backend::get_user_by_name`: single-match search over the paged user
listing (`fetch` abstracts `api_get_list` on the users endpoint). -/
def get_user_by_name (fetch : Nat → Option (BList BUser)) (username : String)
    (fuel : Nat) : Option BUser :=
  (api_find_on_pages fetch
    (fun object =>
      (object.data.find? (fun user => user.attributes.username == username)).map
        (fun user => user.attributes))
    fuel).1

/-- The three environment variables read by `Backend::new_filled`
(PTERODACTYL_URL, PTERODACTYL_TOKEN, PTERODACTYL_USER); `none` means the
variable is unset. -/
structure EnvVars where
  pterodactyl_url : Option String
  pterodactyl_token : Option String
  pterodactyl_user : Option String

/-- The two startup error regimes of the adapter: missing configuration
values (the list carries the field names the code collects and reports)
and an unresolvable configured username. -/
inductive BackendError where
  | missingConfig (fields : List String)
  | unknownUser (name : String)
deriving DecidableEq

/-- `Backend::new_empty`. -/
def new_empty : Backend :=
  { url := some "", token := some "", user := some "", resolved := none }

/-- `Backend::load_or_empty`: the filesystem is abstracted as the
optional parsed file content; `none` covers both an absent file (the
empty default is synthesized and persisted — a side effect outside the
model) and an unreadable one (warned about, empty default used). -/
def load_or_empty (file : Option Backend) : Backend :=
  match file with
  | some backend => backend
  | none => new_empty

/-- A required configuration field is missing when it is `None` or empty
(`is_none() || ...unwrap().is_empty()`). -/
def fieldMissing : Option String → Bool
  | none => true
  | some s => s.isEmpty

/-- `Backend::new_filled`: layer the environment overrides over the
loaded (or synthesized) file content, then validate; the error carries
the missing field names exactly as the code collects and reports them. -/
def new_filled (file : Option Backend) (env : EnvVars) : Except BackendError Backend :=
  let backend := load_or_empty file
  let backend := { backend with
    url := match env.pterodactyl_url with
      | some url => some url
      | none => backend.url
    token := match env.pterodactyl_token with
      | some token => some token
      | none => backend.token
    user := match env.pterodactyl_user with
      | some user => some user
      | none => backend.user }
  let missing :=
    (if fieldMissing backend.url then ["url"] else [])
    ++ (if fieldMissing backend.token then ["token"] else [])
    ++ (if fieldMissing backend.user then ["user"] else [])
  if missing.isEmpty then Except.ok backend
  else Except.error (BackendError.missingConfig missing)

/-- `ResolvedValues::new_resolved`: look up the configured username
(`backend.user.as_ref().unwrap()` panics when it is absent) and take the
remote user's id; an unknown user is a typed error. -/
def new_resolved (fetchUsers : Nat → Option (BList BUser)) (fuel : Nat)
    (b : Backend) : PResult (Except BackendError ResolvedValues) :=
  match b.user with
  | none => PResult.panic
  | some name =>
    match get_user_by_name fetchUsers name fuel with
    | none => PResult.ok (Except.error (BackendError.unknownUser name))
    | some user => PResult.ok (Except.ok { user := user.id })

/-- `Backend::new_filled_and_resolved`: validate the configuration, then
resolve and cache the provider user id. -/
def new_filled_and_resolved (file : Option Backend) (env : EnvVars)
    (fetchUsers : Nat → Option (BList BUser)) (fuel : Nat) :
    PResult (Except BackendError Backend) :=
  match new_filled file env with
  | Except.error e => PResult.ok (Except.error e)
  | Except.ok backend =>
    match new_resolved fetchUsers fuel backend with
    | PResult.panic => PResult.panic
    | PResult.ok (Except.error e) => PResult.ok (Except.error e)
    | PResult.ok (Except.ok resolved) =>
      PResult.ok (Except.ok { backend with resolved := some resolved })

/-! ## Authorization capsule (`auth/user.rs`).  The sampled sources
implement the administrator variant; the capsule type below is the
closed sum of the variants implemented there. -/

inductive AuthType where
  | User
  | Server
deriving DecidableEq, BEq

/-- Modelled from the spec: the server-identity capsule state ("carries
a back-reference to a server record"); its implementation file is not
among the sampled sources and only the type is needed here, as the
result type of `get_server`. -/
structure AuthServer where
  server : Nat

structure AdminUser where
  username : String
deriving DecidableEq

def AdminUser.is_allowed (_ : AdminUser) (_flag : Nat) : Bool := true

def AdminUser.get_user (u : AdminUser) : Option AdminUser := some u

def AdminUser.get_server (_ : AdminUser) : Option AuthServer := none

def AdminUser.is_type (_ : AdminUser) (auth : AuthType) : Bool := auth == AuthType.User

/-- The type-erased capsule (`OwnedAuthorization`, a boxed
`GenericAuthorization`): the closed sum of the implemented variants. -/
inductive OwnedAuthorization where
  | adminUser (user : AdminUser)

def AdminUser.create (username : String) : OwnedAuthorization :=
  OwnedAuthorization.adminUser { username := username }

def AdminUser.recreate (u : AdminUser) : OwnedAuthorization :=
  AdminUser.create u.username

def OwnedAuthorization.is_allowed : OwnedAuthorization → Nat → Bool
  | OwnedAuthorization.adminUser u, flag => u.is_allowed flag

def OwnedAuthorization.get_user : OwnedAuthorization → Option AdminUser
  | OwnedAuthorization.adminUser u => u.get_user

def OwnedAuthorization.get_server : OwnedAuthorization → Option AuthServer
  | OwnedAuthorization.adminUser u => u.get_server

def OwnedAuthorization.is_type : OwnedAuthorization → AuthType → Bool
  | OwnedAuthorization.adminUser u, auth => u.is_type auth

def OwnedAuthorization.recreate : OwnedAuthorization → OwnedAuthorization
  | OwnedAuthorization.adminUser u => u.recreate

/-! ## Concrete page sequences used to instantiate the pagination theorems -/

/-- A three-page listing in which the item 5 sits on page 2. -/
def pagesW : Nat → BList Nat
  | 2 => { data := [{ attributes := 5 }], meta := { pagination := { total_pages := 3 } } }
  | _ => { data := [], meta := { pagination := { total_pages := 3 } } }

/-- Extraction predicate looking for the record 5. -/
def findW (body : BList Nat) : Option Nat :=
  (body.data.find? (fun o => o.attributes == 5)).map (fun o => o.attributes)

/-- A degenerate page reporting zero total pages. -/
def page0W : BList Nat :=
  { data := [], meta := { pagination := { total_pages := 0 } } }

/-- A uniform two-page listing with no matching item on any page. -/
def pagesN2W : Nat → BList Nat :=
  fun _ => { data := [], meta := { pagination := { total_pages := 2 } } }

/-- A free allocation on one page. -/
def freeAllocW : BAllocation := { id := 1, ip := "10.0.0.1", port := 100, assigned := false }

/-- A single page holding just `freeAllocW`. -/
def onePageW : BList BAllocation :=
  { data := [{ attributes := freeAllocW }], meta := { pagination := { total_pages := 1 } } }

/-- Two distinct free allocations sharing the same (ip, port) pair. -/
def dupAllocA : BAllocation := { id := 1, ip := "10.0.0.1", port := 100, assigned := false }

def dupAllocB : BAllocation := { id := 2, ip := "10.0.0.1", port := 100, assigned := false }

/-- A single page holding `dupAllocA` then `dupAllocB`. -/
def dupPageW : BList BAllocation :=
  { data := [{ attributes := dupAllocA }, { attributes := dupAllocB }],
    meta := { pagination := { total_pages := 1 } } }

/-! ## Concrete transports and configurations for the adapter theorems -/

/-- A transport that always answers 422. -/
def http422 : Method → String → List Header → Option (List Nat) → Option Response :=
  fun _ _ _ _ =>
    some { status_code := 422, reason_phrase := "Unprocessable Entity", bytes := [] }

/-- A decoder that never succeeds (a body `serde_json` cannot parse into
the expected shape). -/
def decodeNone : List Nat → Option (BObject Nat) := fun _ => none

def serializeW : BObject (BCServer Nat Nat) → Option (List Nat) := fun _ => some []

/-- A fully configured backend with a resolved identity. -/
def backendW : Backend :=
  { url := some "https://panel.example", token := some "token-1",
    user := some "alice", resolved := some { user := 7 } }

/-- A configured backend whose resolved identity is absent. -/
def backendNoResolved : Backend :=
  { url := some "https://panel.example", token := some "token-1",
    user := some "alice", resolved := none }

/-- A canonical server-creation descriptor. -/
def serverW : Server Nat :=
  { name := "srv",
    allocation := { deployment := { image := "img", environment := [] }, resources := 0 } }

/-- Environment with all three variables set. -/
def envFull : EnvVars :=
  { pterodactyl_url := some "https://panel.example",
    pterodactyl_token := some "token-1",
    pterodactyl_user := some "alice" }

/-- Environment with no variable set. -/
def envEmpty : EnvVars :=
  { pterodactyl_url := none, pterodactyl_token := none, pterodactyl_user := none }

/-- A one-page user listing holding the user alice with id 7. -/
def usersPageW : Nat → Option (BList BUser) :=
  fun _ => some { data := [{ attributes := { id := 7, username := "alice" } }],
                  meta := { pagination := { total_pages := 1 } } }

/-! ## Theorems -/

/-- On a fetch failure the Rust loop body falls through without breaking
or advancing the page, so the loop re-fetches the same page forever;
within any fuel bound, all attempts are at the same page and the loop
never terminates by itself. -/
theorem for_each_fail_loop {α σ : Type} (cb : σ → BList α → σ × Bool) (s : σ) :
    ∀ (fuel page : Nat),
      for_each_on_pages (fun _ => (none : Option (BList α))) cb s page fuel
        = (s, List.replicate fuel page, false) := by
  intro fuel
  induction fuel with
  | zero => intro page; rfl
  | succ n ih =>
    intro page
    simp [for_each_on_pages, ih page, List.replicate_succ]

/-- C1: For every page-fetch function and predicate, if fetching a page
fails, the walk performed by `for_each_on_pages` is claimed to terminate
as if the pages were exhausted, with no retry of the failed page.  The
code instead retries the failed page forever: with every fetch failing,
the loop spends all its fuel re-fetching page 1 and never terminates by
itself (final flag `false`), performing `fuel` fetches of page 1. -/
theorem claim_C1 {α σ : Type} (cb : σ → BList α → σ × Bool) (s : σ) (fuel : Nat) :
    for_each_on_pages (fun _ => (none : Option (BList α))) cb s 1 fuel
      = (s, List.replicate fuel 1, false) :=
  for_each_fail_loop cb s fuel 1

/-- Helper: with a total fetch, pages before `k` matching nothing and
reporting more pages to come, and page `k` yielding `item`, the walk
started anywhere in `1..k` with enough fuel returns `item` and fetches
exactly the pages from its start page up to `k`, in order. -/
theorem find_reaches_hit {α : Type} (pages : Nat → BList α) (f : BList α → Option α)
    (item : α) (k : Nat)
    (hmore : ∀ p, 1 ≤ p → p < k → p < (pages p).meta.pagination.total_pages)
    (hmiss : ∀ p, 1 ≤ p → p < k → f (pages p) = none)
    (hhit : f (pages k) = some item) :
    ∀ (fuel page : Nat) (v : Option α), 1 ≤ page → page ≤ k → k + 1 - page ≤ fuel →
      for_each_on_pages (fun p => some (pages p))
        (fun value response =>
          match f response with
          | some data => (some data, true)
          | none => (value, false)) v page fuel
        = (some item, List.range' page (k + 1 - page), true) := by
  intro fuel
  induction fuel with
  | zero => intro page v h1 h2 h3; omega
  | succ n ih =>
    intro page v h1 h2 h3
    rcases eq_or_lt_of_le h2 with hpk | hlt
    · subst hpk
      have hs : page + 1 - page = 1 := by omega
      simp [for_each_on_pages, hhit, hs, List.range']
    · have hm := hmiss page h1 hlt
      have ht := hmore page h1 hlt
      have hrec := ih (page + 1) v (by omega) (by omega) (by omega)
      have hs2 : k + 1 - (page + 1) = k - page := by omega
      have hs : k + 1 - page = (k - page) + 1 := by omega
      rw [hs2] at hrec
      simp only [for_each_on_pages, hm, hs, List.range']
      rw [if_neg (Nat.not_le.mpr ht), hrec]
      simp

/-- Helper: with a total fetch, every page reporting `N` total pages and
no page matching, the walk started anywhere in `1..N` with enough fuel
stops at page `N` having fetched each remaining page once, in order,
and leaves the callback state unchanged. -/
theorem find_exhausts {α : Type} (pages : Nat → BList α) (f : BList α → Option α) (N : Nat)
    (htot : ∀ p, (pages p).meta.pagination.total_pages = N)
    (hmiss : ∀ p, f (pages p) = none) :
    ∀ (fuel page : Nat) (v : Option α), 1 ≤ page → page ≤ N → N + 1 - page ≤ fuel →
      for_each_on_pages (fun p => some (pages p))
        (fun value response =>
          match f response with
          | some data => (some data, true)
          | none => (value, false)) v page fuel
        = (v, List.range' page (N + 1 - page), true) := by
  intro fuel
  induction fuel with
  | zero => intro page v h1 h2 h3; omega
  | succ n ih =>
    intro page v h1 h2 h3
    rcases eq_or_lt_of_le h2 with hpN | hlt
    · subst hpN
      have hs : page + 1 - page = 1 := by omega
      simp [for_each_on_pages, hmiss page, htot page, hs, List.range']
    · have hrec := ih (page + 1) v (by omega) (by omega) (by omega)
      have hs2 : N + 1 - (page + 1) = N - page := by omega
      have hs : N + 1 - page = (N - page) + 1 := by omega
      rw [hs2] at hrec
      have hnot : ¬((pages page).meta.pagination.total_pages ≤ page) := by
        rw [htot page]; omega
      simp only [for_each_on_pages, hmiss page, hs, List.range']
      rw [if_neg hnot, hrec]
      simp

/-- C3: when every fetch succeeds, pages before `k` match nothing and
(being a coherent listing) report more pages to come, and page `k`
yields the item, `api_find_on_pages` returns that item and fetches
exactly pages `1..k`, once each, in strictly increasing order (trace
`List.range' 1 k`); in particular no page beyond `k` is fetched. -/
theorem claim_C3 {α : Type} (pages : Nat → BList α) (f : BList α → Option α)
    (item : α) (k fuel : Nat) (hk : 1 ≤ k) (hfuel : k ≤ fuel)
    (hmore : ∀ p, 1 ≤ p → p < k → p < (pages p).meta.pagination.total_pages)
    (hmiss : ∀ p, 1 ≤ p → p < k → f (pages p) = none)
    (hhit : f (pages k) = some item) :
    api_find_on_pages (fun p => some (pages p)) f fuel
      = (some item, List.range' 1 k, true) := by
  have h := find_reaches_hit pages f item k hmore hmiss hhit fuel 1 none
    (by omega) hk (by omega)
  simpa [api_find_on_pages] using h

theorem claim_C3_witness :
    api_find_on_pages (fun p => some (pagesW p)) findW 4
      = (some 5, List.range' 1 2, true) :=
  claim_C3 pagesW findW 5 2 4 (by decide) (by decide)
    (by intro p h1 h2; interval_cases p; decide)
    (by intro p h1 h2; interval_cases p; rfl)
    rfl

/-- C4 (amended): when every fetch succeeds, every page reports the same
`total_pages = N` with `N ≥ 1`, and no page matches, the walker performs
exactly `N` fetches (pages `1..N`, once each) and the search returns
nothing.  For `N = 0` the claim as stated fails: the walker still
performs one fetch (see the counterexample). -/
theorem claim_C4 {α : Type} (pages : Nat → BList α) (f : BList α → Option α)
    (N fuel : Nat) (hN : 1 ≤ N) (hfuel : N ≤ fuel)
    (htot : ∀ p, (pages p).meta.pagination.total_pages = N)
    (hmiss : ∀ p, f (pages p) = none) :
    api_find_on_pages (fun p => some (pages p)) f fuel
      = (none, List.range' 1 N, true) := by
  have h := find_exhausts pages f N htot hmiss fuel 1 none (by omega) hN (by omega)
  simpa [api_find_on_pages] using h

theorem claim_C4_witness :
    api_find_on_pages (fun p => some (pagesN2W p)) (fun _ => none) 3
      = (none, List.range' 1 2, true) :=
  claim_C4 pagesN2W (fun _ => none) 2 3 (by decide) (by decide)
    (fun _ => rfl) (fun _ => rfl)

/-- C4, counterexample to the unamended claim: with every page reporting
`total_pages = 0` and no match, the walker performs one fetch, not
`total_pages = 0` fetches. -/
theorem claim_C4_counterexample :
    page0W.meta.pagination.total_pages = 0
    ∧ (api_find_on_pages (fun _ => some page0W) (fun _ => none) 5).2.1.length
        ≠ page0W.meta.pagination.total_pages :=
  ⟨rfl, by decide⟩

/-- Helper: invariant preservation for the page walker.  If the callback
establishes `R` on its output state and preserves `Q` whenever it does
not request a stop, then starting from a state satisfying `Q` and `R`,
the walker's final state satisfies `R` — also when the fuel runs out. -/
theorem for_each_invariant {α σ : Type} (fetch : Nat → Option (BList α))
    (cb : σ → BList α → σ × Bool) (Q R : σ → Prop)
    (hcb : ∀ s r, Q s → R (cb s r).1 ∧ ((cb s r).2 = false → Q (cb s r).1)) :
    ∀ (fuel page : Nat) (s : σ), Q s → R s →
      R (for_each_on_pages fetch cb s page fuel).1 := by
  intro fuel
  induction fuel with
  | zero => intro page s _ hR; exact hR
  | succ n ih =>
    intro page s hQ hR
    cases hf : fetch page with
    | none =>
      simp only [for_each_on_pages, hf]
      exact ih page s hQ hR
    | some resp =>
      obtain ⟨hR2, hQ2⟩ := hcb s resp hQ
      simp only [for_each_on_pages, hf]
      by_cases hstop : (cb s resp).2 = true
      · rw [if_pos hstop]
        exact hR2
      · rw [if_neg hstop]
        by_cases htp : resp.meta.pagination.total_pages ≤ page
        · rw [if_pos htp]
          exact hR2
        · rw [if_neg htp]
          exact ih (page + 1) (cb s resp).1 (hQ2 (by simpa using hstop)) hR2

/-- Helper: scanning a page never pushes the accumulator past `amount`,
and when the scan does not request a stop the accumulator stays strictly
below `amount`. -/
theorem free_alloc_scan_length (used : List BAllocation) (amount : Nat) :
    ∀ (data : List (BObject BAllocation)) (acc : List BAllocation),
      acc.length < amount →
      (free_alloc_scan used amount acc data).1.length ≤ amount
      ∧ ((free_alloc_scan used amount acc data).2 = false →
          (free_alloc_scan used amount acc data).1.length < amount) := by
  intro data
  induction data with
  | nil => intro acc h; exact ⟨Nat.le_of_lt h, fun _ => h⟩
  | cons a rest ih =>
    intro acc h
    simp only [free_alloc_scan]
    by_cases hskip : (a.attributes.assigned
        || used.any (fun u => u.ip == a.attributes.ip
            && u.port == a.attributes.port)) = true
    · rw [if_pos hskip]
      exact ih acc h
    · rw [if_neg hskip]
      by_cases hfull : amount ≤ (acc ++ [a.attributes]).length
      · rw [if_pos hfull]
        refine ⟨?_, ?_⟩
        · simp only [List.length_append, List.length_singleton]
          omega
        · intro hcontra
          simp at hcontra
      · rw [if_neg hfull]
        apply ih
        simp only [List.length_append, List.length_singleton] at hfull ⊢
        omega

/-- Helper: every allocation the page scan accepts is unassigned and its
(ip, port) pair occurs nowhere in `used`; allocations already in the
accumulator are untouched. -/
theorem free_alloc_scan_mem (used : List BAllocation) (amount : Nat) :
    ∀ (data : List (BObject BAllocation)) (acc : List BAllocation),
      (∀ a ∈ acc, a.assigned = false ∧ ∀ u ∈ used, ¬(u.ip = a.ip ∧ u.port = a.port)) →
      ∀ a ∈ (free_alloc_scan used amount acc data).1,
        a.assigned = false ∧ ∀ u ∈ used, ¬(u.ip = a.ip ∧ u.port = a.port) := by
  intro data
  induction data with
  | nil => intro acc hacc; exact hacc
  | cons a rest ih =>
    intro acc hacc
    simp only [free_alloc_scan]
    by_cases hskip : (a.attributes.assigned
        || used.any (fun u => u.ip == a.attributes.ip
            && u.port == a.attributes.port)) = true
    · rw [if_pos hskip]
      exact ih acc hacc
    · rw [if_neg hskip]
      have hgood : a.attributes.assigned = false
          ∧ ∀ u ∈ used, ¬(u.ip = a.attributes.ip ∧ u.port = a.attributes.port) := by
        simp only [Bool.or_eq_true, not_or, List.any_eq_true] at hskip
        obtain ⟨h1, h2⟩ := hskip
        refine ⟨by simpa using h1, ?_⟩
        intro u hu hcontra
        exact h2 ⟨u, hu, by simp [hcontra.1, hcontra.2]⟩
      have hacc2 : ∀ x ∈ acc ++ [a.attributes],
          x.assigned = false ∧ ∀ u ∈ used, ¬(u.ip = x.ip ∧ u.port = x.port) := by
        intro x hx
        rcases List.mem_append.mp hx with hx | hx
        · exact hacc x hx
        · simp only [List.mem_singleton] at hx
          subst hx
          exact hgood
      by_cases hfull : amount ≤ (acc ++ [a.attributes]).length
      · rw [if_pos hfull]
        exact hacc2
      · rw [if_neg hfull]
        exact ih _ hacc2

/-- C2 (amended): for every fetch function, `used` list, fuel and
requested `amount`, the list returned by `get_free_allocations` contains
no allocation whose assigned flag is set and none whose (ip, port) pair
occurs in `used`; and when `amount ≥ 1` it has length at most `amount`.
For `amount = 0` the length bound fails — the code checks the bound only
after accepting an allocation, so one allocation can be returned (see
the counterexample). -/
theorem claim_C2 (fetch : Nat → Option (BList BAllocation)) (used : List BAllocation)
    (amount fuel : Nat) :
    (1 ≤ amount → (get_free_allocations fetch used amount fuel).length ≤ amount)
    ∧ ∀ a ∈ get_free_allocations fetch used amount fuel,
        a.assigned = false ∧ ∀ u ∈ used, ¬(u.ip = a.ip ∧ u.port = a.port) := by
  constructor
  · intro h1
    have h := for_each_invariant fetch
      (fun allocations response => free_alloc_scan used amount allocations response.data)
      (fun s => s.length < amount) (fun s => s.length ≤ amount)
      (fun s r hQ => free_alloc_scan_length used amount r.data s hQ)
      fuel 1 [] (by simpa using h1) (by simp)
    simpa [get_free_allocations] using h
  · have h := for_each_invariant fetch
      (fun allocations response => free_alloc_scan used amount allocations response.data)
      (fun s => ∀ a ∈ s, a.assigned = false ∧ ∀ u ∈ used, ¬(u.ip = a.ip ∧ u.port = a.port))
      (fun s => ∀ a ∈ s, a.assigned = false ∧ ∀ u ∈ used, ¬(u.ip = a.ip ∧ u.port = a.port))
      (fun s r hQ => ⟨free_alloc_scan_mem used amount r.data s hQ,
        fun _ => free_alloc_scan_mem used amount r.data s hQ⟩)
      fuel 1 [] (by simp) (by simp)
    simpa [get_free_allocations] using h

theorem claim_C2_witness :
    (get_free_allocations (fun _ => some onePageW) [] 1 1).length ≤ 1
    ∧ ∀ a ∈ get_free_allocations (fun _ => some onePageW) [] 1 1,
        a.assigned = false
        ∧ ∀ u ∈ ([] : List BAllocation), ¬(u.ip = a.ip ∧ u.port = a.port) :=
  ⟨(claim_C2 (fun _ => some onePageW) [] 1 1).1 (by decide),
   (claim_C2 (fun _ => some onePageW) [] 1 1).2⟩

/-- C2, counterexample to the unamended claim: with `amount = 0` and a
page holding one free allocation, `get_free_allocations` returns one
allocation, violating the bound "length at most `count`". -/
theorem claim_C2_counterexample :
    get_free_allocations (fun _ => some onePageW) [] 0 1 = [freeAllocW]
    ∧ ¬((get_free_allocations (fun _ => some onePageW) [] 0 1).length ≤ 0) :=
  ⟨by decide, by decide⟩

/-- C10: the exclusion check of `get_free_allocations` consults only the
provider's assigned flag and the `used` list, never the allocations
already accepted: on a page holding two distinct free allocations with
the same (ip, port) pair and `used = []`, a request for 2 returns both. -/
theorem claim_C10 :
    get_free_allocations (fun _ => some dupPageW) [] 2 1 = [dupAllocA, dupAllocB]
    ∧ dupAllocA ≠ dupAllocB
    ∧ dupAllocA.ip = dupAllocB.ip ∧ dupAllocA.port = dupAllocB.port
    ∧ dupAllocA.assigned = false ∧ dupAllocB.assigned = false :=
  ⟨by decide, by decide, rfl, rfl, rfl, rfl⟩

/-- Helper: `handle_response` with expected code 200 yields `none`
whenever the response, if present at all, has a status other than 200. -/
theorem handle_response_non200 {T : Type} (decode : List Nat → Option T)
    (resp : Option Response) (h : ∀ r, resp = some r → r.status_code ≠ 200) :
    handle_response decode resp 200 = none := by
  cases resp with
  | none => rfl
  | some r =>
    have hr := h r rfl
    simp [handle_response, hr]

/-- C5: the adapter's response handling yields no result to the caller on
every failure: an absent response (transport failure), a status code
other than the expected 200, or an undecodable body each make
`handle_response` return `none`; consequently `create_server` against a
transport that never answers 200 (for example one answering 422) returns
`PResult.ok none` — no created server, no value with default fields, and
(the result being an `Option`) no typed error. -/
theorem claim_C5 :
    (∀ (T : Type) (decode : List Nat → Option T),
        handle_response decode none 200 = none)
    ∧ (∀ (T : Type) (decode : List Nat → Option T) (r : Response),
        r.status_code ≠ 200 → handle_response decode (some r) 200 = none)
    ∧ (∀ (T : Type) (decode : List Nat → Option T) (r : Response),
        decode r.bytes = none → handle_response decode (some r) 200 = none)
    ∧ (∀ (R L F K : Type)
        (http : Method → String → List Header → Option (List Nat) → Option Response)
        (serialize : BObject (BCServer L F) → Option (List Nat))
        (decode : List Nat → Option (BObject K)) (into : R → L) (b : Backend)
        (server : Server R) (allocation : BAllocation) (egg : Nat) (startup : String)
        (features : F) (rv : ResolvedValues) (url tok : String),
        (∀ m u hs body r, http m u hs body = some r → r.status_code ≠ 200) →
        b.resolved = some rv → b.url = some url → b.token = some tok →
        create_server http serialize decode into b server allocation egg startup features
          = PResult.ok none) := by
  refine ⟨fun T decode => rfl, ?_, ?_, ?_⟩
  · intro T decode r hr
    simp [handle_response, hr]
  · intro T decode r hd
    by_cases hr : r.status_code = 200
    · simp [handle_response, hr, hd]
    · simp [handle_response, hr]
  · intro R L F K http serialize decode into b server allocation egg startup features
      rv url tok hhttp hres hurl htok
    simp only [create_server, hres, post_object_to_api, send_request_to_api, hurl, htok]
    rw [handle_response_non200 decode _ (fun r hr => hhttp _ _ _ _ r hr)]
    rfl

theorem claim_C5_witness :
    handle_response decodeNone none 200 = none
    ∧ handle_response decodeNone
        (some { status_code := 422, reason_phrase := "Unprocessable Entity", bytes := [] })
        200 = none
    ∧ handle_response decodeNone
        (some { status_code := 200, reason_phrase := "OK", bytes := [] }) 200 = none
    ∧ create_server http422 serializeW decodeNone (fun r : Nat => r) backendW serverW
        freeAllocW 1 "start" 0 = PResult.ok none := by
  refine ⟨claim_C5.1 (BObject Nat) decodeNone, ?_, ?_, ?_⟩
  · exact claim_C5.2.1 (BObject Nat) decodeNone
      { status_code := 422, reason_phrase := "Unprocessable Entity", bytes := [] }
      (by decide)
  · exact claim_C5.2.2.1 (BObject Nat) decodeNone
      { status_code := 200, reason_phrase := "OK", bytes := [] } rfl
  · exact claim_C5.2.2.2 Nat Nat Nat Nat http422 serializeW decodeNone (fun r => r)
      backendW serverW freeAllocW 1 "start" 0 { user := 7 }
      "https://panel.example" "token-1"
      (fun m u hs body r hr => by
        simp only [http422, Option.some_inj] at hr
        rw [hr.symm]
        decide)
      rfl rfl rfl

/-- C6: the administrator capsule allows every flag, its `get_server`
yields nothing, and its `get_user` yields a value — exactly one of the
two accessors produces a value. -/
theorem claim_C6 (u : AdminUser) (f : Nat) :
    (OwnedAuthorization.adminUser u).is_allowed f = true
    ∧ (OwnedAuthorization.adminUser u).get_server = none
    ∧ ((OwnedAuthorization.adminUser u).get_user).isSome = true :=
  ⟨rfl, rfl, rfl⟩

/-- C7: reconstruction is observably equivalent to the original capsule:
for every capsule of the (closed) capsule type, every variant kind and
every flag, `is_type` and `is_allowed` agree between `recreate`'s result
and the original. -/
theorem claim_C7 (c : OwnedAuthorization) (kind : AuthType) (f : Nat) :
    c.recreate.is_type kind = c.is_type kind
    ∧ c.recreate.is_allowed f = c.is_allowed f := by
  cases c with
  | adminUser u => exact ⟨rfl, rfl⟩

/-- C8: with the configuration file absent and no environment variable
set, adapter construction fails and reports exactly the fields url,
token and user, in that order, as missing; the absent file itself is
not an error — the empty default is synthesized first (its persistence
is a filesystem side effect outside the model) and validation only then
rejects the empty values. -/
theorem claim_C8 :
    load_or_empty none = new_empty
    ∧ new_filled none envEmpty
        = Except.error (BackendError.missingConfig ["url", "token", "user"]) :=
  ⟨rfl, rfl⟩

/-- C9: `create_server` dereferences the cached resolved identity
unconditionally — whenever `resolved` is absent it panics rather than
returning no result — and every backend that `new_filled_and_resolved`
returns successfully has `resolved` set, which is exactly the
precondition making the dereference safe. -/
theorem claim_C9 :
    (∀ (R L F K : Type)
        (http : Method → String → List Header → Option (List Nat) → Option Response)
        (serialize : BObject (BCServer L F) → Option (List Nat))
        (decode : List Nat → Option (BObject K)) (into : R → L) (b : Backend)
        (server : Server R) (allocation : BAllocation) (egg : Nat) (startup : String)
        (features : F),
        b.resolved = none →
        create_server http serialize decode into b server allocation egg startup features
          = PResult.panic)
    ∧ (∀ (file : Option Backend) (env : EnvVars)
        (fetchUsers : Nat → Option (BList BUser)) (fuel : Nat) (b : Backend),
        new_filled_and_resolved file env fetchUsers fuel = PResult.ok (Except.ok b) →
        b.resolved.isSome = true) := by
  constructor
  · intro R L F K http serialize decode into b server allocation egg startup features hres
    simp [create_server, hres]
  · intro file env fetchUsers fuel b h
    unfold new_filled_and_resolved at h
    split at h
    · simp at h
    · split at h
      · simp at h
      · simp at h
      · simp only [PResult.ok.injEq, Except.ok.injEq] at h
        rw [← h]
        rfl

theorem claim_C9_witness :
    create_server http422 serializeW decodeNone (fun r : Nat => r) backendNoResolved
      serverW freeAllocW 1 "start" 0 = PResult.panic
    ∧ backendW.resolved.isSome = true :=
  ⟨claim_C9.1 Nat Nat Nat Nat http422 serializeW decodeNone (fun r => r) backendNoResolved
      serverW freeAllocW 1 "start" 0 rfl,
   claim_C9.2 none envFull usersPageW 1 backendW rfl⟩

end AtomicCloud
